import Mathlib

/-!
Shallow embedding of the pattern-cursor, settings and session logic of
`base_loom_server` (files `reduced_pattern.py`, `utils.py`,
`base_loom_server.py`), together with theorems settling the claims about
its specification.

Python integers are modelled as `Int`; Python exceptions as the explicit
result type `Except PyErr`; Python `divmod` (floor division) as
`Int.fdiv` / `Int.fmod`.
-/

/-- The Python exception kinds raised by the modelled code. -/
inductive PyErr where
  | indexError
  | valueError
  | commandError
  deriving DecidableEq, Repr

/-- One pick of a pattern (`Pick` in `reduced_pattern.py`). -/
structure Pick where
  color : Int
  shaft_word : Int
  deriving DecidableEq, Repr

/-- A weaving pattern reduced to the bare essentials, with the embedded
weaving/threading cursor (`ReducedPattern` in `reduced_pattern.py`). -/
structure ReducedPattern where
  name : String
  color_table : List String
  warp_colors : List Int
  threading : List Int
  picks : List Pick
  pick0 : Pick
  pick_number : Int := 0
  pick_repeat_number : Int := 1
  end_number0 : Int := 0
  end_number1 : Int := 0
  end_repeat_number : Int := 1
  thread_group_size : Int := 4
  separate_weaving_repeats : Bool := false
  separate_threading_repeats : Bool := false
  deriving DecidableEq, Repr

attribute [ext] ReducedPattern

/-- `ReducedPattern.check_end_number`: raise `IndexError` unless
`0 ≤ end_number0 ≤ len(threading)`. -/
def ReducedPattern.check_end_number (p : ReducedPattern) (end_number0 : Int) :
    Except PyErr Unit :=
  if end_number0 < 0 then .error .indexError
  else if end_number0 > (p.threading.length : Int) then .error .indexError
  else .ok ()

/-- `ReducedPattern.check_pick_number`: raise `IndexError` unless
`0 ≤ pick_number ≤ len(picks)`. -/
def ReducedPattern.check_pick_number (p : ReducedPattern) (pick_number : Int) :
    Except PyErr Unit :=
  if pick_number < 0 then .error .indexError
  else if pick_number > (p.picks.length : Int) then .error .indexError
  else .ok ()

/-- `ReducedPattern.compute_end_number1`: compute `end_number1` from
`end_number0`. -/
def ReducedPattern.compute_end_number1 (p : ReducedPattern) (end_number0 : Int) :
    Except PyErr Int :=
  match p.check_end_number end_number0 with
  | .error e => .error e
  | .ok () =>
    if end_number0 = 0 then .ok 0
    else .ok (min (end_number0 + p.thread_group_size - 1) (p.threading.length : Int))

/-- `ReducedPattern.compute_next_end_numbers`: compute the next
`(end_number0, end_number1, end_repeat_number)` in the given direction. -/
def ReducedPattern.compute_next_end_numbers (p : ReducedPattern)
    (thread_low_to_high : Bool) : Except PyErr (Int × Int × Int) :=
  match p.check_end_number p.end_number0 with
  | .error e => .error e
  | .ok () =>
    if p.end_number0 = 0 ∧ p.end_repeat_number = 1 ∧ thread_low_to_high = false then
      .error .indexError
    else
      let max_end_number : Int := (p.threading.length : Int)
      -- `new_end_number1 = none` means: let `set_current_end_number` compute it.
      let step : Int × Option Int × Int :=
        if thread_low_to_high then
          if p.end_number0 = 0 then
            (1, none, p.end_repeat_number)
          else if p.end_number1 < max_end_number then
            (p.end_number1 + 1, none, p.end_repeat_number)
          else
            ((if p.separate_threading_repeats then 0 else 1), none, p.end_repeat_number + 1)
        else
          if p.end_number0 = 1 ∧ (p.separate_threading_repeats ∨ p.end_repeat_number = 1) then
            (0, none, p.end_repeat_number)
          else if p.end_number0 = 0 ∨ (p.end_number0 = 1 ∧ ¬p.separate_threading_repeats) then
            (max (max_end_number + 1 - p.thread_group_size) 1, some max_end_number,
              p.end_repeat_number - 1)
          else
            (max (p.end_number0 - p.thread_group_size) 1, some (p.end_number0 - 1),
              p.end_repeat_number)
      match step with
      | (new_end_number0, some new_end_number1, new_end_repeat_number) =>
        .ok (new_end_number0, new_end_number1, new_end_repeat_number)
      | (new_end_number0, none, new_end_repeat_number) =>
        if new_end_number0 = 0 then
          .ok (new_end_number0, 0, new_end_repeat_number)
        else
          .ok (new_end_number0,
            min (new_end_number0 + p.thread_group_size - 1) max_end_number,
            new_end_repeat_number)

/-- `ReducedPattern.compute_next_pick_numbers`: compute the next
`(pick_number, pick_repeat_number)` in the given direction. -/
def ReducedPattern.compute_next_pick_numbers (p : ReducedPattern)
    (direction_forward : Bool) : Except PyErr (Int × Int) :=
  match p.check_pick_number p.pick_number with
  | .error e => .error e
  | .ok () =>
    if p.pick_number = 0 ∧ p.pick_repeat_number = 1 ∧ direction_forward = false then
      .error .indexError
    else
      let next_pick_repeat_number := p.pick_repeat_number
      let next_pick_number :=
        if direction_forward then p.pick_number + 1 else p.pick_number - 1
      if direction_forward then
        if p.pick_number = (p.picks.length : Int) then
          .ok ((if p.separate_weaving_repeats then 0 else 1), next_pick_repeat_number + 1)
        else
          .ok (next_pick_number, next_pick_repeat_number)
      else
        if p.pick_number = 1 ∧ (p.separate_weaving_repeats ∨ p.pick_repeat_number = 1) then
          .ok (0, next_pick_repeat_number)
        else if p.pick_number = 0 ∨ (p.pick_number = 1 ∧ ¬p.separate_weaving_repeats) then
          .ok ((p.picks.length : Int), next_pick_repeat_number - 1)
        else
          .ok (next_pick_number, next_pick_repeat_number)

/-- `ReducedPattern.get_pick`: `pick0` for pick number 0, else
`picks[pick_number - 1]`; `IndexError` when out of range. -/
def ReducedPattern.get_pick (p : ReducedPattern) (pick_number : Int) :
    Except PyErr Pick :=
  match p.check_pick_number pick_number with
  | .error e => .error e
  | .ok () =>
    if pick_number = 0 then .ok p.pick0
    else .ok (p.picks.getD (pick_number - 1).toNat p.pick0)

/-- `ReducedPattern.get_current_pick`. -/
def ReducedPattern.get_current_pick (p : ReducedPattern) : Except PyErr Pick :=
  p.get_pick p.pick_number

/-- `ReducedPattern.get_threading_shaft_word`: bitwise union of the shafts of
`threading[end_number0-1 .. end_number1-1]` (a Python set comprehension,
hence the `dedup`), 0 when `end_number0 = 0`. -/
def ReducedPattern.get_threading_shaft_word (p : ReducedPattern) : Int :=
  if p.end_number0 = 0 then 0
  else
    let shaft_set :=
      ((p.threading.drop (p.end_number0 - 1).toNat).take
        (p.end_number1 - (p.end_number0 - 1)).toNat).dedup
    ((shaft_set.filter (fun shaft => 0 ≤ shaft)).map
      (fun shaft => (2 : Int) ^ shaft.toNat)).sum

/-- The validation of the `end_number1` argument of
`ReducedPattern.set_current_end_number` (the `if end_number1 is not None`
block of the source; `none` means: compute it via `compute_end_number1`). -/
def ReducedPattern.checked_end_number1 (p : ReducedPattern) (end_number0 : Int)
    (end_number1 : Option Int) : Except PyErr Int :=
  match end_number1 with
  | some e1 =>
    if end_number0 = 0 then
      if e1 ≠ 0 then .error .indexError else .ok e1
    else if e1 > (p.threading.length : Int) then .error .indexError
    else if e1 < end_number0 then .error .indexError
    else .ok e1
  | none => p.compute_end_number1 end_number0

/-- `ReducedPattern.set_current_end_number`: set the end-cursor fields after
full validation (all raises happen before any mutation in the source);
the `end_number1` validation is split out as `checked_end_number1` above. -/
def ReducedPattern.set_current_end_number (p : ReducedPattern) (end_number0 : Int)
    (end_number1 : Option Int := none) (end_repeat_number : Option Int := none) :
    Except PyErr ReducedPattern :=
  match p.check_end_number end_number0 with
  | .error e => .error e
  | .ok () =>
    match p.checked_end_number1 end_number0 end_number1 with
    | .error e => .error e
    | .ok e1 =>
      .ok { p with
        end_number0 := end_number0
        end_number1 := e1
        end_repeat_number := end_repeat_number.getD p.end_repeat_number }

/-- `ReducedPattern.set_current_pick_number`: set `pick_number` after bounds
validation. -/
def ReducedPattern.set_current_pick_number (p : ReducedPattern) (pick_number : Int) :
    Except PyErr ReducedPattern :=
  match p.check_pick_number pick_number with
  | .error e => .error e
  | .ok () => .ok { p with pick_number := pick_number }

/-- `ReducedPattern.increment_pick_number`: advance the pick cursor in the
given direction (the source also returns the new pick number; the new pick
number is the `pick_number` field of the result). -/
def ReducedPattern.increment_pick_number (p : ReducedPattern)
    (direction_forward : Bool) : Except PyErr ReducedPattern :=
  match p.compute_next_pick_numbers direction_forward with
  | .error e => .error e
  | .ok (n, r) => .ok { p with pick_number := n, pick_repeat_number := r }

/-- `ReducedPattern.increment_end_number`: advance the end cursor in the given
direction via `set_current_end_number`. -/
def ReducedPattern.increment_end_number (p : ReducedPattern)
    (thread_low_to_high : Bool) : Except PyErr ReducedPattern :=
  match p.compute_next_end_numbers thread_low_to_high with
  | .error e => .error e
  | .ok (e0, e1, rep) => p.set_current_end_number e0 (some e1) (some rep)

/-- `compute_num_within_and_repeats` from `utils.py`: split a total count into
a 1-based count within a repeat and a 1-based repeat number.
Python `divmod` is floor division, i.e. `Int.fdiv` / `Int.fmod`. -/
def compute_num_within_and_repeats (total_num repeat_len : Int) :
    Except PyErr (Int × Int) :=
  if repeat_len ≤ 0 then .error .valueError
  else
    let zero_based_repeat_number := Int.fdiv total_num repeat_len
    let num_within := Int.fmod total_num repeat_len
    if num_within = 0 ∧ total_num ≠ 0 then
      .ok (repeat_len, (zero_based_repeat_number - 1) + 1)
    else
      .ok (num_within, zero_based_repeat_number + 1)

/-- `compute_total_num` from `utils.py`. -/
def compute_total_num (num_within repeat_number repeat_len : Int) :
    Except PyErr Int :=
  if repeat_len ≤ 0 then .error .valueError
  else .ok (repeat_len * (repeat_number - 1) + num_within)

/-- A concrete pattern used by witnesses: 30 warp ends, 10 picks,
`thread_group_size = 4`. -/
def egPattern : ReducedPattern :=
  { name := "eg"
    color_table := ["#ffffff", "#000000"]
    warp_colors := List.replicate 30 0
    threading := List.replicate 30 0
    picks := List.replicate 10 { color := 0, shaft_word := 1 }
    pick0 := { color := 0, shaft_word := 0 } }

/-- The pattern-cursor invariant of the data model:
`0 ≤ pick_number ≤ len(picks)`, `0 ≤ end_number0 ≤ end_number1 ≤
len(threading)`, and `end_number0 = 0` iff `end_number1 = 0`. -/
def cursorInvariant (p : ReducedPattern) : Prop :=
  0 ≤ p.pick_number ∧ p.pick_number ≤ (p.picks.length : Int) ∧
  0 ≤ p.end_number0 ∧ p.end_number0 ≤ p.end_number1 ∧
  p.end_number1 ≤ (p.threading.length : Int) ∧
  (p.end_number0 = 0 ↔ p.end_number1 = 0)

instance (p : ReducedPattern) : Decidable (cursorInvariant p) := by
  unfold cursorInvariant
  infer_instance

/-- Advance the pick cursor `k` times in the given direction. -/
def iterIncrementPick (direction_forward : Bool) :
    Nat → ReducedPattern → Except PyErr ReducedPattern
  | 0, p => .ok p
  | k + 1, p =>
    match p.increment_pick_number direction_forward with
    | .error e => .error e
    | .ok q => iterIncrementPick direction_forward k q

/-- Advance the pick cursor forward `k` times, then backward `k` times. -/
def pickRoundTrip (k : Nat) (p : ReducedPattern) : Except PyErr ReducedPattern :=
  match iterIncrementPick true k p with
  | .error e => .error e
  | .ok q => iterIncrementPick false k q

/-- `DirectionControlEnum` from `enums.py`. -/
inductive DirectionControlEnum where
  | full
  | loom
  | software
  deriving DecidableEq, Repr

/-- `ModeEnum` from `enums.py`. -/
inductive ModeEnum where
  | weave
  | thread
  | settings
  deriving DecidableEq, Repr

/-- `MessageSeverityEnum` from `enums.py`. -/
inductive MessageSeverityEnum where
  | info
  | warning
  | error
  deriving DecidableEq, Repr

/-- The `Settings` dataclass from `client_replies.py`. -/
structure Settings where
  language : String
  loom_name : String
  direction_control : DirectionControlEnum
  end1_on_right : Bool
  thread_group_size : Int
  thread_right_to_left : Bool
  thread_back_to_front : Bool
  deriving DecidableEq, Repr

def MAX_THREAD_GROUP_SIZE : Int := 10

/-- `BaseLoomServer.thread_low_to_high`: derived threading direction. -/
def thread_low_to_high (settings : Settings) (direction_forward : Bool) : Bool :=
  let l1 := settings.thread_back_to_front == settings.thread_right_to_left
  let l2 := if !settings.end1_on_right then !l1 else l1
  if !direction_forward then !l2 else l2

/-- A JSON value of a field of an incoming `settings` command.
`vOther` covers JSON values of any other shape (null, float, array, object). -/
inductive Value where
  | vInt (n : Int)
  | vBool (b : Bool)
  | vStr (s : String)
  | vOther
  deriving DecidableEq, Repr

/-- Python `isinstance(value, int)`; note `bool` is a subtype of `int`. -/
def Value.isInt : Value → Bool
  | vInt _ => true
  | vBool _ => true
  | _ => false

/-- Python `isinstance(value, bool)`. -/
def Value.isBool : Value → Bool
  | vBool _ => true
  | _ => false

/-- Python `isinstance(value, str)`. -/
def Value.isStr : Value → Bool
  | vStr _ => true
  | _ => false

/-- The numeric value of a `value` passing `isinstance(value, int)`
(`True == 1`, `False == 0`). -/
def Value.toInt : Value → Int
  | vInt n => n
  | vBool b => if b then 1 else 0
  | _ => 0

/-- `DirectionControlEnum(value)`: `none` models the `ValueError` raised for
values that are not members of the enum (`True == 1` selects FULL). -/
def directionControlOfValue : Value → Option DirectionControlEnum
  | .vInt 1 => some .full
  | .vInt 2 => some .loom
  | .vInt 3 => some .software
  | .vBool true => some .full
  | _ => none

/-- The per-key validation loop of `BaseLoomServer.cmd_settings`: `orig` is
the live `self.settings` (the language comparison reads it), `ns` is the
candidate copy being mutated, `bad_keys` collects unknown keys.
`lang_ok l` models whether `get_translation_dict` succeeds for language `l`
(it raises for every non-string value, modelled in the `vStr` dispatch). -/
def settingsLoop (sup_full : Bool) (lang_ok : String → Bool) (orig : Settings) :
    Settings → List String → List (String × Value) →
    Except PyErr (Settings × List String)
  | ns, bad_keys, [] => .ok (ns, bad_keys)
  | ns, bad_keys, (key, value) :: rest =>
    if key = "type" then settingsLoop sup_full lang_ok orig ns bad_keys rest
    else if key = "direction_control" then
      match directionControlOfValue value with
      | none => .error .valueError
      | some dc =>
        if sup_full then
          if dc ≠ .full then .error .commandError
          else settingsLoop sup_full lang_ok orig
            { ns with direction_control := dc } bad_keys rest
        else
          if dc = .full then .error .commandError
          else settingsLoop sup_full lang_ok orig
            { ns with direction_control := dc } bad_keys rest
    else if key = "language" then
      match value with
      | .vStr l =>
        if l = orig.language then
          settingsLoop sup_full lang_ok orig { ns with language := l } bad_keys rest
        else if lang_ok l then
          settingsLoop sup_full lang_ok orig { ns with language := l } bad_keys rest
        else .error .commandError
      | _ => .error .commandError
    else if key = "loom_name" then
      match value with
      | .vStr x => settingsLoop sup_full lang_ok orig
          { ns with loom_name := x } bad_keys rest
      | _ => .error .commandError
    else if key = "end1_on_right" then
      match value with
      | .vBool b => settingsLoop sup_full lang_ok orig
          { ns with end1_on_right := b } bad_keys rest
      | _ => .error .commandError
    else if key = "thread_group_size" then
      if value.isInt then
        if value.toInt < 1 ∨ value.toInt > MAX_THREAD_GROUP_SIZE then
          .error .commandError
        else settingsLoop sup_full lang_ok orig
          { ns with thread_group_size := value.toInt } bad_keys rest
      else .error .commandError
    else if key = "thread_right_to_left" then
      match value with
      | .vBool b => settingsLoop sup_full lang_ok orig
          { ns with thread_right_to_left := b } bad_keys rest
      | _ => .error .commandError
    else if key = "thread_back_to_front" then
      match value with
      | .vBool b => settingsLoop sup_full lang_ok orig
          { ns with thread_back_to_front := b } bad_keys rest
      | _ => .error .commandError
    else settingsLoop sup_full lang_ok orig ns (bad_keys ++ [key]) rest

/-- `BaseLoomServer.cmd_settings`: validate each field of the command into a
candidate copy of the live settings; unknown keys are collected and raise a
single `CommandError` at the end; only on full success is the candidate
returned (to replace the live settings). -/
def cmd_settings (sup_full : Bool) (lang_ok : String → Bool) (s : Settings)
    (cmd : List (String × Value)) : Except PyErr Settings :=
  match settingsLoop sup_full lang_ok s s [] cmd with
  | .error e => .error e
  | .ok (ns, bad_keys) =>
    if bad_keys ≠ [] then .error .commandError else .ok ns

/-- The live settings after a `settings` command: the candidate replaces the
live settings only when the whole command validates (`self.settings` is
assigned only after the loop). -/
def liveSettingsAfter (sup_full : Bool) (lang_ok : String → Bool) (s : Settings)
    (cmd : List (String × Value)) : Settings :=
  match cmd_settings sup_full lang_ok s cmd with
  | .error _ => s
  | .ok ns => ns

/-- A settings-command entry that is invalid in one of the four senses the
spec enumerates: wrong type for a typed key, `thread_group_size` outside
`[1, MAX_THREAD_GROUP_SIZE]`, unknown key, or `direction_control`
incompatible with the declared loom capability. -/
def listedInvalidEntry (sup_full : Bool) (entry : String × Value) : Bool :=
  if entry.1 = "type" then false
  else if entry.1 = "direction_control" then
    match directionControlOfValue entry.2 with
    | some dc => if sup_full then dc != .full else dc == .full
    | none => false
  else if entry.1 = "language" then false
  else if entry.1 = "loom_name" then !entry.2.isStr
  else if entry.1 = "end1_on_right" then !entry.2.isBool
  else if entry.1 = "thread_group_size" then
    !entry.2.isInt || (decide (entry.2.toInt < 1) || decide (entry.2.toInt > MAX_THREAD_GROUP_SIZE))
  else if entry.1 = "thread_right_to_left" then !entry.2.isBool
  else if entry.1 = "thread_back_to_front" then !entry.2.isBool
  else true

/-- The initial `Settings` built by the `BaseLoomServer` constructor for a
loom with full direction control. -/
def egSettings : Settings :=
  { language := "English"
    loom_name := "base"
    direction_control := .full
    end1_on_right := true
    thread_group_size := 4
    thread_right_to_left := true
    thread_back_to_front := true }

/-- `JumpPickNumber` from `client_replies.py` (all fields `None` when no jump
is pending). -/
structure JumpPickNumber where
  total_pick_number : Option Int := none
  pick_number : Option Int := none
  pick_repeat_number : Option Int := none
  deriving DecidableEq, Repr

/-- `JumpEndNumber` from `client_replies.py`. -/
structure JumpEndNumber where
  total_end_number0 : Option Int := none
  total_end_number1 : Option Int := none
  end_number0 : Option Int := none
  end_number1 : Option Int := none
  end_repeat_number : Option Int := none
  deriving DecidableEq, Repr

/-- The replies `handle_next_pick_request` may write to the client. -/
inductive ClientReply where
  | statusMessage (message : String) (severity : MessageSeverityEnum)
  | currentPickNumber (total_pick_number pick_number pick_repeat_number : Int)
  | currentEndNumber (total_end_number0 total_end_number1 end_number0
      end_number1 end_repeat_number : Int)
  | jumpPickNumber (jp : JumpPickNumber)
  | jumpEndNumber (je : JumpEndNumber)
  deriving DecidableEq, Repr

/-- The server state touched by `handle_next_pick_request`. -/
structure ServerState where
  mode : ModeEnum
  direction_forward : Bool
  settings : Settings
  current_pattern : Option ReducedPattern
  jump_pick : JumpPickNumber
  jump_end : JumpEndNumber
  deriving DecidableEq, Repr

/-- The replies produced by `BaseLoomServer.clear_jumps`: `clear_jump_end`
then `clear_jump_pick`, each reporting the cleared value only if it
changed. -/
def clear_jumps_replies (s : ServerState) : List ClientReply :=
  (if s.jump_end ≠ {} then [ClientReply.jumpEndNumber {}] else []) ++
  (if s.jump_pick ≠ {} then [ClientReply.jumpPickNumber {}] else [])

/-- Result of `handle_next_pick_request`: the `did_advance` return value, the
state after the call, the replies written to the client, and the shaft words
written to the loom. -/
structure HandleResult where
  did_advance : Bool
  state : ServerState
  client_replies : List ClientReply
  loom_writes : List Int
  deriving DecidableEq, Repr

/-- The tail of the WEAVE branch of `handle_next_pick_request` after the new
pick cursor is known: apply a pending jump repeat number, fetch the current
pick, write its shaft word to the loom, clear the jumps and report the
current pick number (which computes the total pick number). -/
def weaveRest (s : ServerState) (pat1 : ReducedPattern) :
    Except PyErr HandleResult :=
  let pat2 :=
    match s.jump_pick.pick_repeat_number with
    | some r => { pat1 with pick_repeat_number := r }
    | none => pat1
  match pat2.get_current_pick with
  | .error e => .error e
  | .ok pick =>
    match compute_total_num pat2.pick_number pat2.pick_repeat_number
        (pat2.picks.length : Int) with
    | .error e => .error e
    | .ok total =>
      .ok ⟨true,
        { s with current_pattern := some pat2, jump_pick := {}, jump_end := {} },
        clear_jumps_replies s ++
          [ClientReply.currentPickNumber total pat2.pick_number pat2.pick_repeat_number],
        [pick.shaft_word]⟩

/-- The tail of the THREAD branch of `handle_next_pick_request`: compute the
threading shaft word, write it to the loom, clear the jumps and report the
current end numbers (which computes both total end numbers). -/
def threadRest (s : ServerState) (pat1 : ReducedPattern) :
    Except PyErr HandleResult :=
  match compute_total_num pat1.end_number0 pat1.end_repeat_number
      (pat1.threading.length : Int) with
  | .error e => .error e
  | .ok total0 =>
    match compute_total_num pat1.end_number1 pat1.end_repeat_number
        (pat1.threading.length : Int) with
    | .error e => .error e
    | .ok total1 =>
      .ok ⟨true,
        { s with current_pattern := some pat1, jump_pick := {}, jump_end := {} },
        clear_jumps_replies s ++
          [ClientReply.currentEndNumber total0 total1 pat1.end_number0
            pat1.end_number1 pat1.end_repeat_number],
        [pat1.get_threading_shaft_word]⟩

/-- `BaseLoomServer.handle_next_pick_request`: in WEAVE mode consume a
pending pick jump or advance the pick cursor (converting the start-of-weaving
`IndexError` of the increment into a status message and `False`); in THREAD
mode the same with the end cursor; in SETTINGS mode ignore the request. -/
def handle_next_pick_request (s : ServerState) : Except PyErr HandleResult :=
  match s.current_pattern with
  | none => .ok ⟨false, s, [], []⟩
  | some pattern =>
    match s.mode with
    | ModeEnum.weave =>
      match s.jump_pick.pick_number with
      | some jn =>
        match pattern.set_current_pick_number jn with
        | .error e => .error e
        | .ok pat1 => weaveRest s pat1
      | none =>
        match pattern.increment_pick_number s.direction_forward with
        | .error .indexError =>
          .ok ⟨false, s,
            [ClientReply.statusMessage "At start of weaving" MessageSeverityEnum.error], []⟩
        | .error e => .error e
        | .ok pat1 => weaveRest s pat1
    | ModeEnum.thread =>
      match s.jump_end.end_number0 with
      | some je0 =>
        match pattern.set_current_end_number je0 s.jump_end.end_number1
            s.jump_end.end_repeat_number with
        | .error e => .error e
        | .ok pat1 => threadRest s pat1
      | none =>
        match pattern.increment_end_number
            (thread_low_to_high s.settings s.direction_forward) with
        | .error .indexError =>
          .ok ⟨false, s,
            [ClientReply.statusMessage "At start of threading" MessageSeverityEnum.error], []⟩
        | .error e => .error e
        | .ok pat1 => threadRest s pat1
    | ModeEnum.settings => .ok ⟨false, s, [], []⟩

/-- Events of the sequential session-takeover model. -/
inductive ServerEvent where
  | closeWebsocket (conn : Nat) (code : Int) (reason : String)
  | acceptClient (conn : Nat)
  | sendInitialState (conn : Nat)
  deriving DecidableEq, Repr

/-- The client-connection state of `BaseLoomServer`. -/
structure SessionState where
  client_connected : Bool
  websocket : Option Nat
  deriving DecidableEq, Repr

/-- `CloseCode.GOING_AWAY` (RFC 6455 close code 1001). -/
def GOING_AWAY : Int := 1001

/-- `BaseLoomServer.disconnect_client`: cancel the read task, drop the
current websocket and close it with code GOING_AWAY and the translated
reason "another client took control". `tr` is `BaseLoomServer.t`. -/
def disconnect_client (tr : String → String) (st : SessionState) :
    SessionState × List ServerEvent :=
  match st.websocket with
  | none => ({ st with websocket := none }, [])
  | some w =>
    ({ st with websocket := none },
      [ServerEvent.closeWebsocket w GOING_AWAY (tr "another client took control")])

/-- Sequential model of `BaseLoomServer.run_client` followed by the start of
`read_client_loop`: evict any attached client first, accept the new
websocket, then the read loop marks the client connected and sends the full
initial server state to it. -/
def run_client (tr : String → String) (st : SessionState) (ws : Nat) :
    SessionState × List ServerEvent :=
  let step1 := if st.client_connected then disconnect_client tr st else (st, [])
  let st2 : SessionState := { step1.1 with websocket := some ws }
  let st3 : SessionState := { st2 with client_connected := true }
  (st3, step1.2 ++ [ServerEvent.acceptClient ws, ServerEvent.sendInitialState ws])

/-- C1: backward from `(pick_number = 0, pick_repeat_number = 1)` the next-pick
computation raises the start-of-sequence `IndexError`; forward from
`pick_number = len(picks)` it wraps to 0 (separate repeats) or 1 (otherwise)
and increments `pick_repeat_number` by exactly 1. -/
theorem C1_pick_boundary (p : ReducedPattern) :
    (p.pick_number = 0 → p.pick_repeat_number = 1 →
      p.compute_next_pick_numbers false = .error .indexError) ∧
    (p.pick_number = (p.picks.length : Int) →
      p.compute_next_pick_numbers true =
        .ok ((if p.separate_weaving_repeats then 0 else 1), p.pick_repeat_number + 1)) := by
  constructor
  · intro h0 h1
    have h2 : ¬ ((p.picks.length : Int) < 0) := by simp
    simp [ReducedPattern.compute_next_pick_numbers, ReducedPattern.check_pick_number, h0, h1, h2]
  · intro hlen
    have h0 : ¬ ((p.picks.length : Int) < 0) := by simp
    simp [ReducedPattern.compute_next_pick_numbers, ReducedPattern.check_pick_number, hlen, h0]

/-- C1 witness at a concrete cursor state. -/
theorem C1_pick_boundary_witness :
    egPattern.compute_next_pick_numbers false = .error .indexError :=
  (C1_pick_boundary egPattern).1 rfl rfl

/-- C2: for all valid `(pickNumber, pickRepeatNumber, repeatLen)` with
`1 ≤ pickNumber ≤ repeatLen` and repeat number at least 1 (the only repeat
numbers the cursor arithmetic ever produces),
`compute_num_within_and_repeats (compute_total_num ...)` returns exactly
`(pickNumber, pickRepeatNumber)`. -/
theorem C2_round_trip (pick_number pick_repeat_number repeat_len : Int)
    (h1 : 1 ≤ pick_number) (h2 : pick_number ≤ repeat_len)
    (hr : 1 ≤ pick_repeat_number) :
    (compute_total_num pick_number pick_repeat_number repeat_len).bind
      (fun total_num => compute_num_within_and_repeats total_num repeat_len) =
      .ok (pick_number, pick_repeat_number) := by
  have hL : 0 < repeat_len := lt_of_lt_of_le zero_lt_one (h1.trans h2)
  have hLne : repeat_len ≠ 0 := ne_of_gt hL
  have hnot : ¬ repeat_len ≤ 0 := not_le.mpr hL
  have hbind : (compute_total_num pick_number pick_repeat_number repeat_len).bind
      (fun t => compute_num_within_and_repeats t repeat_len) =
      compute_num_within_and_repeats
        (repeat_len * (pick_repeat_number - 1) + pick_number) repeat_len := by
    simp [compute_total_num, hnot, Except.bind]
  rw [hbind]
  by_cases hp : pick_number = repeat_len
  · have hT2 : repeat_len * (pick_repeat_number - 1) + pick_number
        = repeat_len * pick_repeat_number := by rw [hp]; ring
    have hmod : (repeat_len * pick_repeat_number) % repeat_len = 0 :=
      Int.mul_emod_right _ _
    have hdiv : (repeat_len * pick_repeat_number) / repeat_len = pick_repeat_number :=
      Int.mul_ediv_cancel_left _ hLne
    have hTne : repeat_len * pick_repeat_number ≠ 0 := by
      have : 0 < repeat_len * pick_repeat_number := mul_pos hL (by omega)
      omega
    simp only [compute_num_within_and_repeats, if_neg hnot, hT2,
      Int.fdiv_eq_ediv _ hL.le, Int.fmod_eq_emod _ hL.le, hmod, hdiv]
    simp [hTne, hp]
  · have hlt : pick_number < repeat_len := lt_of_le_of_ne h2 hp
    have hT2 : repeat_len * (pick_repeat_number - 1) + pick_number
        = pick_number + repeat_len * (pick_repeat_number - 1) := by ring
    have hmod : (pick_number + repeat_len * (pick_repeat_number - 1)) % repeat_len
        = pick_number := by
      rw [Int.add_mul_emod_self_left pick_number repeat_len (pick_repeat_number - 1),
        Int.emod_eq_of_lt (by omega) hlt]
    have hdiv : (pick_number + repeat_len * (pick_repeat_number - 1)) / repeat_len
        = pick_repeat_number - 1 := by
      rw [Int.add_mul_ediv_left pick_number (pick_repeat_number - 1) hLne,
        Int.ediv_eq_zero_of_lt (by omega) hlt, zero_add]
    have hpne : ¬ (pick_number = 0 ∧
        pick_number + repeat_len * (pick_repeat_number - 1) ≠ 0) := by
      intro h
      omega
    simp only [compute_num_within_and_repeats, if_neg hnot, hT2,
      Int.fdiv_eq_ediv _ hL.le, Int.fmod_eq_emod _ hL.le, hmod, hdiv]
    rw [if_neg hpne]
    have h3 : pick_repeat_number - 1 + 1 = pick_repeat_number := by omega
    rw [h3]

theorem C2_witness :
    (compute_total_num 3 3 10).bind
      (fun total_num => compute_num_within_and_repeats total_num 10) = .ok (3, 3) :=
  C2_round_trip 3 3 10 (by norm_num) (by norm_num) (by norm_num)

/-- C9: for `0 ≤ end0 ≤ len(threading)`, `compute_end_number1 end0` returns
`min(end0 + thread_group_size - 1, len(threading))` when `end0 > 0` and `0`
when `end0 = 0`; out-of-range `end0` raises `IndexError`. -/
theorem C9_compute_end_number1 (p : ReducedPattern) (end_number0 : Int) :
    (0 ≤ end_number0 → end_number0 ≤ (p.threading.length : Int) →
      p.compute_end_number1 end_number0 =
        .ok (if end_number0 = 0 then 0
          else min (end_number0 + p.thread_group_size - 1) (p.threading.length : Int))) ∧
    (end_number0 < 0 ∨ (p.threading.length : Int) < end_number0 →
      p.compute_end_number1 end_number0 = .error .indexError) := by
  constructor
  · intro h0 h1
    rw [ReducedPattern.compute_end_number1, ReducedPattern.check_end_number,
      if_neg (not_lt.mpr h0), if_neg (not_lt.mpr h1)]
    by_cases he : end_number0 = 0 <;> simp [he]
  · intro h
    rcases h with h | h
    · rw [ReducedPattern.compute_end_number1, ReducedPattern.check_end_number, if_pos h]
    · rw [ReducedPattern.compute_end_number1, ReducedPattern.check_end_number,
        if_neg (by omega), if_pos h]

/-- C9 witness: the spec scenario `threadGroupSize = 4`, `len(threading) = 30`,
`end0 = 28` gives `end1 = 30`. -/
theorem C9_compute_end_number1_witness :
    egPattern.compute_end_number1 28 = .ok 30 := by
  have h := (C9_compute_end_number1 egPattern 28).1 (by decide) (by decide)
  rw [h]
  norm_num [egPattern]

theorem set_current_pick_number_inv (p p' : ReducedPattern) (n : Int)
    (hinv : cursorInvariant p)
    (h : p.set_current_pick_number n = .ok p') : cursorInvariant p' := by
  unfold ReducedPattern.set_current_pick_number ReducedPattern.check_pick_number at h
  split at h
  · exact absurd h (by simp)
  next heq =>
    simp only [Except.ok.injEq] at h
    subst h
    split at heq
    · exact absurd heq (by simp)
    next hlt =>
      split at heq
      · exact absurd heq (by simp)
      next hgt =>
        obtain ⟨a, b, c, d, e, f⟩ := hinv
        exact ⟨(by omega : 0 ≤ n), (by omega : n ≤ (p.picks.length : Int)), c, d, e, f⟩

theorem check_end_number_range (p : ReducedPattern) (n : Int)
    (h : p.check_end_number n = .ok ()) :
    0 ≤ n ∧ n ≤ (p.threading.length : Int) := by
  unfold ReducedPattern.check_end_number at h
  split at h
  · exact absurd h (by simp)
  next h1 =>
    split at h
    · exact absurd h (by simp)
    next h2 => exact ⟨by omega, by omega⟩

theorem check_pick_number_range (p : ReducedPattern) (n : Int)
    (h : p.check_pick_number n = .ok ()) :
    0 ≤ n ∧ n ≤ (p.picks.length : Int) := by
  unfold ReducedPattern.check_pick_number at h
  split at h
  · exact absurd h (by simp)
  next h1 =>
    split at h
    · exact absurd h (by simp)
    next h2 => exact ⟨by omega, by omega⟩

theorem checked_end_number1_range (p : ReducedPattern) (e0 : Int) (e1 : Option Int)
    (ev : Int) (hgs : 1 ≤ p.thread_group_size)
    (h0 : 0 ≤ e0) (h1 : e0 ≤ (p.threading.length : Int))
    (h : p.checked_end_number1 e0 e1 = .ok ev) :
    e0 ≤ ev ∧ ev ≤ (p.threading.length : Int) ∧ (e0 = 0 ↔ ev = 0) := by
  unfold ReducedPattern.checked_end_number1 at h
  cases e1 with
  | some e1v =>
    dsimp only at h
    by_cases hz : e0 = 0
    · rw [if_pos hz] at h
      by_cases hnz : e1v ≠ 0
      · rw [if_pos hnz] at h; exact absurd h (by simp)
      · rw [if_neg hnz] at h
        simp only [Except.ok.injEq] at h
        subst h
        refine ⟨by omega, by omega, by omega⟩
    · rw [if_neg hz] at h
      split at h
      · exact absurd h (by simp)
      next hle =>
        split at h
        · exact absurd h (by simp)
        next hge =>
          simp only [Except.ok.injEq] at h
          subst h
          refine ⟨by omega, by omega, by omega⟩
  | none =>
    dsimp only at h
    unfold ReducedPattern.compute_end_number1 ReducedPattern.check_end_number at h
    rw [if_neg (not_lt.mpr h0), if_neg (not_lt.mpr h1)] at h
    by_cases hz : e0 = 0
    · rw [if_pos hz] at h
      simp only [Except.ok.injEq] at h
      subst h
      refine ⟨by omega, by omega, by omega⟩
    · rw [if_neg hz] at h
      simp only [Except.ok.injEq] at h
      subst h
      refine ⟨by omega, by omega, ?_⟩
      constructor
      · intro hc; exact absurd hc hz
      · intro hc; omega

theorem set_current_end_number_inv (p p' : ReducedPattern)
    (e0 : Int) (e1 : Option Int) (rep : Option Int)
    (hinv : cursorInvariant p) (hgs : 1 ≤ p.thread_group_size)
    (h : p.set_current_end_number e0 e1 rep = .ok p') : cursorInvariant p' := by
  obtain ⟨a, b, c, d, e, f⟩ := hinv
  unfold ReducedPattern.set_current_end_number at h
  cases hc : p.check_end_number e0 with
  | error err => rw [hc] at h; exact absurd h (by simp)
  | ok u =>
    cases u
    rw [hc] at h
    obtain ⟨h0, h1⟩ := check_end_number_range p e0 hc
    cases hv : p.checked_end_number1 e0 e1 with
    | error err => rw [hv] at h; exact absurd h (by simp)
    | ok ev =>
      rw [hv] at h
      obtain ⟨k1, k2, k3⟩ := checked_end_number1_range p e0 e1 ev hgs h0 h1 hv
      simp only [Except.ok.injEq] at h
      subst h
      exact ⟨a, b, h0, k1, k2, k3⟩

theorem compute_next_pick_numbers_bounds (p : ReducedPattern) (d : Bool) (n r : Int)
    (hL : 1 ≤ (p.picks.length : Int))
    (h : p.compute_next_pick_numbers d = .ok (n, r)) :
    0 ≤ n ∧ n ≤ (p.picks.length : Int) := by
  unfold ReducedPattern.compute_next_pick_numbers at h
  cases hc : p.check_pick_number p.pick_number with
  | error err => rw [hc] at h; exact absurd h (by simp)
  | ok u =>
    cases u
    rw [hc] at h
    obtain ⟨h0, h1⟩ := check_pick_number_range p p.pick_number hc
    dsimp only at h
    split at h
    · exact absurd h (by simp)
    next hraise =>
      split at h
      next hd =>
        split at h
        next hend =>
          simp only [Except.ok.injEq, Prod.mk.injEq] at h
          obtain ⟨hn, hr⟩ := h
          rw [← hn]
          split <;> omega
        next hend =>
          simp only [Except.ok.injEq, Prod.mk.injEq] at h
          omega
      next hd =>
        split at h
        next hb1 =>
          simp only [Except.ok.injEq, Prod.mk.injEq] at h
          omega
        next hb1 =>
          split at h
          next hb2 =>
            simp only [Except.ok.injEq, Prod.mk.injEq] at h
            omega
          next hb2 =>
            simp only [Except.ok.injEq, Prod.mk.injEq] at h
            have hpn : p.pick_number ≠ 0 := fun hh => hb2 (Or.inl hh)
            omega

theorem increment_pick_number_inv (p p' : ReducedPattern) (d : Bool)
    (hinv : cursorInvariant p) (hL : 1 ≤ (p.picks.length : Int))
    (h : p.increment_pick_number d = .ok p') : cursorInvariant p' := by
  unfold ReducedPattern.increment_pick_number at h
  cases hc : p.compute_next_pick_numbers d with
  | error err => rw [hc] at h; exact absurd h (by simp)
  | ok nr =>
    obtain ⟨n, r⟩ := nr
    rw [hc] at h
    obtain ⟨hb0, hb1⟩ := compute_next_pick_numbers_bounds p d n r hL hc
    simp only [Except.ok.injEq] at h
    subst h
    obtain ⟨a, b, c, d', e, f⟩ := hinv
    exact ⟨hb0, hb1, c, d', e, f⟩

theorem increment_end_number_inv (p p' : ReducedPattern) (d : Bool)
    (hinv : cursorInvariant p) (hgs : 1 ≤ p.thread_group_size)
    (h : p.increment_end_number d = .ok p') : cursorInvariant p' := by
  unfold ReducedPattern.increment_end_number at h
  cases hc : p.compute_next_end_numbers d with
  | error err => rw [hc] at h; exact absurd h (by simp)
  | ok t =>
    obtain ⟨e0, e1, rep⟩ := t
    rw [hc] at h
    exact set_current_end_number_inv p p' e0 (some e1) (some rep) hinv hgs h

theorem compute_next_end_numbers_bounds (p : ReducedPattern) (d : Bool)
    (e0 e1 rep : Int)
    (hinv : cursorInvariant p) (hgs : 1 ≤ p.thread_group_size)
    (hL : 1 ≤ (p.threading.length : Int))
    (h : p.compute_next_end_numbers d = .ok (e0, e1, rep)) :
    0 ≤ e0 ∧ e0 ≤ e1 ∧ e1 ≤ (p.threading.length : Int) ∧ (e0 = 0 ↔ e1 = 0) := by
  obtain ⟨a, b, c, d', e, f⟩ := hinv
  unfold ReducedPattern.compute_next_end_numbers at h
  cases hc : p.check_end_number p.end_number0 with
  | error err => rw [hc] at h; exact absurd h (by simp)
  | ok u =>
    cases u
    rw [hc] at h
    dsimp only at h
    split at h
    · exact absurd h (by simp)
    next hraise =>
      by_cases hdt : d = true
      · rw [if_pos hdt] at h
        by_cases hz : p.end_number0 = 0
        · rw [if_pos hz] at h
          dsimp only at h
          rw [if_neg (by omega : ¬ (1:Int) = 0)] at h
          simp only [Except.ok.injEq, Prod.mk.injEq] at h
          omega
        · rw [if_neg hz] at h
          by_cases hlt : p.end_number1 < (p.threading.length : Int)
          · rw [if_pos hlt] at h
            dsimp only at h
            rw [if_neg (by omega : ¬ p.end_number1 + 1 = 0)] at h
            simp only [Except.ok.injEq, Prod.mk.injEq] at h
            omega
          · rw [if_neg hlt] at h
            by_cases hsep : p.separate_threading_repeats
            · rw [if_pos hsep] at h
              dsimp only at h
              rw [if_pos rfl] at h
              simp only [Except.ok.injEq, Prod.mk.injEq] at h
              omega
            · rw [if_neg hsep] at h
              dsimp only at h
              rw [if_neg (by omega : ¬ (1:Int) = 0)] at h
              simp only [Except.ok.injEq, Prod.mk.injEq] at h
              omega
      · rw [if_neg hdt] at h
        by_cases hb1 : p.end_number0 = 1 ∧
            (p.separate_threading_repeats ∨ p.end_repeat_number = 1)
        · rw [if_pos hb1] at h
          dsimp only at h
          rw [if_pos rfl] at h
          simp only [Except.ok.injEq, Prod.mk.injEq] at h
          omega
        · rw [if_neg hb1] at h
          by_cases hb2 : p.end_number0 = 0 ∨
              (p.end_number0 = 1 ∧ ¬p.separate_threading_repeats)
          · rw [if_pos hb2] at h
            dsimp only at h
            simp only [Except.ok.injEq, Prod.mk.injEq] at h
            omega
          · rw [if_neg hb2] at h
            dsimp only at h
            simp only [Except.ok.injEq, Prod.mk.injEq] at h
            have hne0 : p.end_number0 ≠ 0 := fun hh => hb2 (Or.inl hh)
            have hne1 : p.end_number0 ≠ 1 := by
              intro hh
              by_cases hsep : p.separate_threading_repeats
              · exact hb1 ⟨hh, Or.inl hsep⟩
              · exact hb2 (Or.inr ⟨hh, hsep⟩)
            omega

/-- C5: every cursor-mutating operation preserves the pattern-cursor
invariant (for valid data-model parameters: group size at least 1, nonempty
picks and threading): the compute operations only produce in-range cursor
values, and the set/increment operations only return states satisfying the
invariant (raising instead of mutating otherwise). -/
theorem C5_cursor_ops_preserve_invariant (p : ReducedPattern) (d : Bool)
    (hinv : cursorInvariant p) (hgs : 1 ≤ p.thread_group_size)
    (hpk : 1 ≤ (p.picks.length : Int)) (hth : 1 ≤ (p.threading.length : Int)) :
    (∀ n r, p.compute_next_pick_numbers d = .ok (n, r) →
        0 ≤ n ∧ n ≤ (p.picks.length : Int)) ∧
    (∀ e0 e1 rep, p.compute_next_end_numbers d = .ok (e0, e1, rep) →
        0 ≤ e0 ∧ e0 ≤ e1 ∧ e1 ≤ (p.threading.length : Int) ∧ (e0 = 0 ↔ e1 = 0)) ∧
    (∀ n p', p.set_current_pick_number n = .ok p' → cursorInvariant p') ∧
    (∀ e0 e1 rep p', p.set_current_end_number e0 e1 rep = .ok p' → cursorInvariant p') ∧
    (∀ p', p.increment_pick_number d = .ok p' → cursorInvariant p') ∧
    (∀ p', p.increment_end_number d = .ok p' → cursorInvariant p') := by
  refine ⟨?_, ?_, ?_, ?_, ?_, ?_⟩
  · intro n r h; exact compute_next_pick_numbers_bounds p d n r hpk h
  · intro e0 e1 rep h; exact compute_next_end_numbers_bounds p d e0 e1 rep hinv hgs hth h
  · intro n p' h; exact set_current_pick_number_inv p p' n hinv h
  · intro e0 e1 rep p' h; exact set_current_end_number_inv p p' e0 e1 rep hinv hgs h
  · intro p' h; exact increment_pick_number_inv p p' d hinv hpk h
  · intro p' h; exact increment_end_number_inv p p' d hinv hgs h

/-- C5 witness: incrementing the pick cursor of the example pattern forward
yields a state satisfying the invariant. -/
theorem C5_cursor_ops_preserve_invariant_witness :
    cursorInvariant { egPattern with pick_number := 1, pick_repeat_number := 1 } :=
  (C5_cursor_ops_preserve_invariant egPattern true (by decide) (by decide)
      (by decide) (by decide)).2.2.2.2.1
    { egPattern with pick_number := 1, pick_repeat_number := 1 } rfl

theorem compute_next_pick_true_eq (p : ReducedPattern)
    (h0 : 0 ≤ p.pick_number) (h1 : p.pick_number ≤ (p.picks.length : Int)) :
    p.compute_next_pick_numbers true =
      (if p.pick_number = (p.picks.length : Int)
        then .ok ((if p.separate_weaving_repeats then 0 else 1), p.pick_repeat_number + 1)
        else .ok (p.pick_number + 1, p.pick_repeat_number)) := by
  unfold ReducedPattern.compute_next_pick_numbers ReducedPattern.check_pick_number
  rw [if_neg (not_lt.mpr h0), if_neg (not_lt.mpr h1)]
  dsimp only
  rw [if_neg (by simp :
    ¬(p.pick_number = 0 ∧ p.pick_repeat_number = 1 ∧ true = false))]
  simp

theorem compute_next_pick_false_eq (p : ReducedPattern)
    (h0 : 0 ≤ p.pick_number) (h1 : p.pick_number ≤ (p.picks.length : Int))
    (hnr : ¬(p.pick_number = 0 ∧ p.pick_repeat_number = 1)) :
    p.compute_next_pick_numbers false =
      (if p.pick_number = 1 ∧ (p.separate_weaving_repeats ∨ p.pick_repeat_number = 1)
        then .ok (0, p.pick_repeat_number)
        else if p.pick_number = 0 ∨ (p.pick_number = 1 ∧ ¬p.separate_weaving_repeats)
          then .ok ((p.picks.length : Int), p.pick_repeat_number - 1)
          else .ok (p.pick_number - 1, p.pick_repeat_number)) := by
  unfold ReducedPattern.compute_next_pick_numbers ReducedPattern.check_pick_number
  rw [if_neg (not_lt.mpr h0), if_neg (not_lt.mpr h1)]
  dsimp only
  rw [if_neg (by simpa using hnr)]
  simp

theorem pick_fwd_bwd_step (p : ReducedPattern)
    (h0 : 0 ≤ p.pick_number) (h1 : p.pick_number ≤ (p.picks.length : Int))
    (hL : 1 ≤ (p.picks.length : Int)) (hr : 1 ≤ p.pick_repeat_number)
    (hx : ¬(p.separate_weaving_repeats = false ∧ p.pick_number = 0 ∧
      2 ≤ p.pick_repeat_number)) :
    ∃ q : ReducedPattern,
      p.increment_pick_number true = .ok q ∧
      q.increment_pick_number false = .ok p ∧
      0 ≤ q.pick_number ∧ q.pick_number ≤ (q.picks.length : Int) ∧
      q.picks = p.picks ∧ 1 ≤ q.pick_repeat_number ∧
      q.separate_weaving_repeats = p.separate_weaving_repeats ∧
      ¬(q.separate_weaving_repeats = false ∧ q.pick_number = 0 ∧
        2 ≤ q.pick_repeat_number) := by
  by_cases hend : p.pick_number = (p.picks.length : Int)
  · by_cases hsep : p.separate_weaving_repeats
    · refine ⟨{ p with pick_number := 0, pick_repeat_number := p.pick_repeat_number + 1 }, ?_, ?_, ?_, ?_, ?_, ?_, ?_, ?_⟩
      · unfold ReducedPattern.increment_pick_number
        rw [compute_next_pick_true_eq p h0 h1, if_pos hend, if_pos hsep]
      · unfold ReducedPattern.increment_pick_number
        rw [compute_next_pick_false_eq _
          (le_refl (0:Int)) (by omega : (0:Int) ≤ (p.picks.length : Int))
          (by omega : ¬((0:Int) = 0 ∧ p.pick_repeat_number + 1 = 1))]
        rw [if_neg (by norm_num :
          ¬((0:Int) = 1 ∧ (p.separate_weaving_repeats ∨ p.pick_repeat_number + 1 = 1)))]
        rw [if_pos (Or.inl rfl : (0:Int) = 0 ∨
          ((0:Int) = 1 ∧ ¬p.separate_weaving_repeats))]
        dsimp only
        have hfix : ({ p with pick_number := (p.picks.length : Int), pick_repeat_number := p.pick_repeat_number + 1 - 1 } : ReducedPattern) = p := by
          ext <;> simp <;> try omega
        rw [hfix]
      · exact le_refl 0
      · exact (by omega : (0:Int) ≤ (p.picks.length : Int))
      · rfl
      · exact (by omega : 1 ≤ p.pick_repeat_number + 1)
      · rfl
      · intro hc
        dsimp only at hc
        simp [hsep] at hc
    · refine ⟨{ p with pick_number := 1, pick_repeat_number := p.pick_repeat_number + 1 }, ?_, ?_, ?_, ?_, ?_, ?_, ?_, ?_⟩
      · unfold ReducedPattern.increment_pick_number
        rw [compute_next_pick_true_eq p h0 h1, if_pos hend, if_neg hsep]
      · unfold ReducedPattern.increment_pick_number
        rw [compute_next_pick_false_eq _
          (by omega : (0:Int) ≤ 1) (by omega : (1:Int) ≤ (p.picks.length : Int))
          (by omega : ¬((1:Int) = 0 ∧ p.pick_repeat_number + 1 = 1))]
        rw [if_neg (by
          intro hc
          rcases hc.2 with hs | hrep
          · exact hsep hs
          · omega :
          ¬((1:Int) = 1 ∧ (p.separate_weaving_repeats ∨ p.pick_repeat_number + 1 = 1)))]
        rw [if_pos (Or.inr ⟨rfl, hsep⟩ : (1:Int) = 0 ∨
          ((1:Int) = 1 ∧ ¬p.separate_weaving_repeats))]
        dsimp only
        have hfix : ({ p with pick_number := (p.picks.length : Int), pick_repeat_number := p.pick_repeat_number + 1 - 1 } : ReducedPattern) = p := by
          ext <;> simp <;> try omega
        rw [hfix]
      · exact (by omega : (0:Int) ≤ 1)
      · exact (by omega : (1:Int) ≤ (p.picks.length : Int))
      · rfl
      · exact (by omega : 1 ≤ p.pick_repeat_number + 1)
      · rfl
      · intro hc
        dsimp only at hc
        exact absurd hc.2.1 (by omega)
  · refine ⟨{ p with pick_number := p.pick_number + 1, pick_repeat_number := p.pick_repeat_number }, ?_, ?_, ?_, ?_, ?_, ?_, ?_, ?_⟩
    · unfold ReducedPattern.increment_pick_number
      rw [compute_next_pick_true_eq p h0 h1, if_neg hend]
    · unfold ReducedPattern.increment_pick_number
      rw [compute_next_pick_false_eq _
        (by omega : (0:Int) ≤ p.pick_number + 1)
        (by omega : p.pick_number + 1 ≤ (p.picks.length : Int))
        (by omega : ¬(p.pick_number + 1 = 0 ∧ p.pick_repeat_number = 1))]
      by_cases hpn0 : p.pick_number = 0
      · have hsep1 : p.separate_weaving_repeats = true ∨ p.pick_repeat_number = 1 := by
          by_cases hs : p.separate_weaving_repeats
          · exact Or.inl hs
          · right
            by_contra hne
            exact hx ⟨by simpa using hs, hpn0, by omega⟩
        rw [if_pos (⟨by omega, hsep1⟩ :
          p.pick_number + 1 = 1 ∧
            (p.separate_weaving_repeats ∨ p.pick_repeat_number = 1))]
        dsimp only
        have hfix : ({ p with pick_number := (0:Int), pick_repeat_number := p.pick_repeat_number } : ReducedPattern) = p := by
          ext <;> simp <;> try omega
        rw [hfix]
      · rw [if_neg (by
          intro hc
          omega :
          ¬(p.pick_number + 1 = 1 ∧
            (p.separate_weaving_repeats ∨ p.pick_repeat_number = 1)))]
        rw [if_neg (by
          intro hc
          rcases hc with hc | hc
          · omega
          · omega :
          ¬(p.pick_number + 1 = 0 ∨
            (p.pick_number + 1 = 1 ∧ ¬p.separate_weaving_repeats)))]
        dsimp only
        have hfix : ({ p with pick_number := p.pick_number + 1 - 1, pick_repeat_number := p.pick_repeat_number } : ReducedPattern) = p := by
          ext <;> simp <;> try omega
        rw [hfix]
    · exact (by omega : (0:Int) ≤ p.pick_number + 1)
    · exact (by omega : p.pick_number + 1 ≤ (p.picks.length : Int))
    · rfl
    · exact hr
    · rfl
    · intro hc
      dsimp only at hc
      exact absurd hc.2.1 (by omega)

theorem iterIncrementPick_succ_right (d : Bool) (k : Nat) (p : ReducedPattern) :
    iterIncrementPick d (k + 1) p =
      (match iterIncrementPick d k p with
        | Except.error e => Except.error e
        | Except.ok q => q.increment_pick_number d) := by
  induction k generalizing p with
  | zero =>
    show (match p.increment_pick_number d with
      | Except.error e => Except.error e
      | Except.ok q => Except.ok q) = p.increment_pick_number d
    cases p.increment_pick_number d <;> rfl
  | succ n ih =>
    have hL : iterIncrementPick d (n + 1 + 1) p =
        (match p.increment_pick_number d with
          | Except.error e => Except.error e
          | Except.ok q => iterIncrementPick d (n + 1) q) := rfl
    have hR : iterIncrementPick d (n + 1) p =
        (match p.increment_pick_number d with
          | Except.error e => Except.error e
          | Except.ok q => iterIncrementPick d n q) := rfl
    rw [hL, hR]
    cases hstep : p.increment_pick_number d with
    | error e => rfl
    | ok q =>
      dsimp only
      rw [ih q]

theorem pickRoundTrip_eq (k : Nat) (p : ReducedPattern)
    (h0 : 0 ≤ p.pick_number) (h1 : p.pick_number ≤ (p.picks.length : Int))
    (hL : 1 ≤ (p.picks.length : Int)) (hr : 1 ≤ p.pick_repeat_number)
    (hx : ¬(p.separate_weaving_repeats = false ∧ p.pick_number = 0 ∧
      2 ≤ p.pick_repeat_number)) :
    pickRoundTrip k p = .ok p := by
  induction k generalizing p with
  | zero => rfl
  | succ n ih =>
    obtain ⟨q, hfwd, hbwd, q0, q1, qpicks, qr, qsep, qx⟩ :=
      pick_fwd_bwd_step p h0 h1 hL hr hx
    have hF : iterIncrementPick true (n + 1) p = iterIncrementPick true n q := by
      show (match p.increment_pick_number true with
        | Except.error e => Except.error e
        | Except.ok q => iterIncrementPick true n q) = _
      rw [hfwd]
    have hLq : 1 ≤ (q.picks.length : Int) := by rw [qpicks]; exact hL
    have ihq := ih q q0 q1 hLq qr qx
    unfold pickRoundTrip at ihq ⊢
    rw [hF]
    cases hFq : iterIncrementPick true n q with
    | error e =>
      rw [hFq] at ihq
      exact absurd ihq (by simp)
    | ok r =>
      rw [hFq] at ihq
      dsimp only at ihq ⊢
      rw [iterIncrementPick_succ_right false n r, ihq]
      dsimp only
      exact hbwd

/-- C6: advancing the pick cursor forward `k` times then backward `k` times
returns to the original `(pick_number, pick_repeat_number)` (indeed the whole
state), for every valid cursor state except exactly the documented
separate/non-separate boundary asymmetry: `separate_weaving_repeats = false`
with the cursor on the neutral position 0 of a repeat past the first, where
the round trip provably does not return (for every positive `k`). -/
theorem C6_pick_roundtrip (p : ReducedPattern) (k : Nat)
    (h0 : 0 ≤ p.pick_number) (h1 : p.pick_number ≤ (p.picks.length : Int))
    (hL : 1 ≤ (p.picks.length : Int)) (hr : 1 ≤ p.pick_repeat_number) :
    (¬(p.separate_weaving_repeats = false ∧ p.pick_number = 0 ∧
        2 ≤ p.pick_repeat_number) →
      pickRoundTrip k p = .ok p) ∧
    ((p.separate_weaving_repeats = false ∧ p.pick_number = 0 ∧
        2 ≤ p.pick_repeat_number) →
      1 ≤ k → pickRoundTrip k p ≠ .ok p) := by
  constructor
  · intro hx
    exact pickRoundTrip_eq k p h0 h1 hL hr hx
  · intro hx hk
    obtain ⟨hsep, hpn, hrep⟩ := hx
    obtain ⟨m, rfl⟩ : ∃ m, k = m + 1 := ⟨k - 1, by omega⟩
    have hfwd : p.increment_pick_number true =
        .ok { p with pick_number := p.pick_number + 1, pick_repeat_number := p.pick_repeat_number } := by
      unfold ReducedPattern.increment_pick_number
      rw [compute_next_pick_true_eq p h0 h1, if_neg (by omega : ¬ p.pick_number = (p.picks.length : Int))]
    set q : ReducedPattern := { p with pick_number := p.pick_number + 1, pick_repeat_number := p.pick_repeat_number } with hq
    have hrtq : pickRoundTrip m q = .ok q := by
      refine pickRoundTrip_eq m q (by simp [hq]; omega) (by simp [hq]; omega)
        (by simp [hq]; omega) (by simp [hq]; omega) ?_
      intro hc
      rw [hq] at hc
      dsimp only at hc
      omega
    have hF : iterIncrementPick true (m + 1) p = iterIncrementPick true m q := by
      show (match p.increment_pick_number true with
        | Except.error e => Except.error e
        | Except.ok q => iterIncrementPick true m q) = _
      rw [hfwd]
    unfold pickRoundTrip at hrtq ⊢
    rw [hF]
    cases hFq : iterIncrementPick true m q with
    | error e =>
      rw [hFq] at hrtq
      exact absurd hrtq (by simp)
    | ok r =>
      rw [hFq] at hrtq
      dsimp only at hrtq ⊢
      rw [iterIncrementPick_succ_right false m r, hrtq]
      dsimp only
      have hbwdq : q.increment_pick_number false =
          .ok { q with pick_number := (q.picks.length : Int), pick_repeat_number := q.pick_repeat_number - 1 } := by
        unfold ReducedPattern.increment_pick_number
        rw [compute_next_pick_false_eq q (by simp [hq]; omega) (by simp [hq]; omega)
          (by simp [hq]; omega)]
        rw [if_neg (show
          ¬(q.pick_number = 1 ∧ (q.separate_weaving_repeats ∨ q.pick_repeat_number = 1))
          by simp [hq, hsep]; omega)]
        rw [if_pos (show
          q.pick_number = 0 ∨ (q.pick_number = 1 ∧ ¬q.separate_weaving_repeats)
          from Or.inr ⟨by simp [hq]; omega, by simp [hq, hsep]⟩)]
      rw [hbwdq]
      intro heq
      simp only [Except.ok.injEq] at heq
      have hpneq := congrArg ReducedPattern.pick_number heq
      simp [hq] at hpneq
      omega

/-- C6 witness at the example pattern, three steps forward then backward. -/
theorem C6_pick_roundtrip_witness : pickRoundTrip 3 egPattern = .ok egPattern :=
  (C6_pick_roundtrip egPattern 3 (by decide) (by decide) (by decide) (by decide)).1
    (by decide)

/-- C8: the derived threading direction is the parity (XOR) of three
conditions: `thread_back_to_front == thread_right_to_left`, inverted when
`end1_on_right` is false, inverted again when the current direction is
reverse. -/
theorem C8_thread_low_to_high (settings : Settings) (direction_forward : Bool) :
    thread_low_to_high settings direction_forward =
      xor (xor (settings.thread_back_to_front == settings.thread_right_to_left)
            (!settings.end1_on_right))
          (!direction_forward) := by
  obtain ⟨lang, name, dc, e1r, gs, trl, tbf⟩ := settings
  cases e1r <;> cases trl <;> cases tbf <;> cases direction_forward <;> rfl

theorem increment_pick_number_at_start (p : ReducedPattern)
    (h0 : p.pick_number = 0) (h1 : p.pick_repeat_number = 1) :
    p.increment_pick_number false = .error .indexError := by
  unfold ReducedPattern.increment_pick_number ReducedPattern.compute_next_pick_numbers
    ReducedPattern.check_pick_number
  rw [h0, h1]
  have h2 : ¬ ((p.picks.length : Int) < 0) := by simp
  simp [h2]

theorem increment_end_number_at_start (p : ReducedPattern)
    (h0 : p.end_number0 = 0) (h1 : p.end_repeat_number = 1) :
    p.increment_end_number false = .error .indexError := by
  unfold ReducedPattern.increment_end_number ReducedPattern.compute_next_end_numbers
    ReducedPattern.check_end_number
  rw [h0, h1]
  have h2 : ¬ ((p.threading.length : Int) < 0) := by simp
  simp [h2]

/-- C4: with no jump pending and the cursor at the absolute beginning for the
current direction, a next-pick request in WEAVE (resp. THREAD) mode returns
`did_advance = false`, leaves the state unchanged, writes nothing to the
loom, and sends the client exactly one "At start of weaving" (resp. "At
start of threading") error status message; the start-of-sequence
`IndexError` is caught, not propagated. -/
theorem C4_start_of_sequence (s : ServerState) (pattern : ReducedPattern)
    (hpat : s.current_pattern = some pattern)
    (hjp : s.jump_pick = {}) (hje : s.jump_end = {}) :
    (s.mode = ModeEnum.weave → s.direction_forward = false →
      pattern.pick_number = 0 → pattern.pick_repeat_number = 1 →
      handle_next_pick_request s =
        .ok ⟨false, s,
          [ClientReply.statusMessage "At start of weaving" MessageSeverityEnum.error], []⟩) ∧
    (s.mode = ModeEnum.thread →
      thread_low_to_high s.settings s.direction_forward = false →
      pattern.end_number0 = 0 → pattern.end_repeat_number = 1 →
      handle_next_pick_request s =
        .ok ⟨false, s,
          [ClientReply.statusMessage "At start of threading" MessageSeverityEnum.error], []⟩) := by
  constructor
  · intro hmode hdir hpn hrep
    unfold handle_next_pick_request
    rw [hpat, hmode, hjp]
    dsimp only
    rw [hdir, increment_pick_number_at_start pattern hpn hrep]
  · intro hmode htlh he0 herep
    unfold handle_next_pick_request
    rw [hpat, hmode, hje]
    dsimp only
    rw [htlh, increment_end_number_at_start pattern he0 herep]

/-- C4 witness: a concrete WEAVE-mode state at the start of weaving. -/
theorem C4_start_of_sequence_witness :
    handle_next_pick_request
        ⟨ModeEnum.weave, false, egSettings, some egPattern, {}, {}⟩ =
      .ok ⟨false, ⟨ModeEnum.weave, false, egSettings, some egPattern, {}, {}⟩,
        [ClientReply.statusMessage "At start of weaving" MessageSeverityEnum.error], []⟩ :=
  (C4_start_of_sequence _ egPattern rfl rfl rfl).1 rfl rfl rfl rfl

/-- C7 counterexample: with the identity translation (the default when a
phrase has no entry), the reason the evicted connection is closed with is
the literal phrase "another client took control", not "superseded". -/
theorem C7_counterexample :
    (run_client id ⟨true, some 0⟩ 1).2 =
      [ServerEvent.closeWebsocket 0 1001 "another client took control",
       ServerEvent.acceptClient 1, ServerEvent.sendInitialState 1] ∧
    "another client took control" ≠ "superseded" := by
  constructor
  · rfl
  · decide

/-- C7 (amended): attaching a second client evicts the first: its connection
is closed — before the new one is accepted — with close code GOING_AWAY and
the translated reason "another client took control" (not "superseded"), and
afterwards exactly the new client is attached and receives the full initial
state snapshot. -/
theorem C7_session_takeover (tr : String → String) (st : SessionState)
    (w ws : Nat) (hconn : st.client_connected = true)
    (hws : st.websocket = some w) :
    run_client tr st ws =
      ({ client_connected := true, websocket := some ws },
       [ServerEvent.closeWebsocket w GOING_AWAY (tr "another client took control"),
        ServerEvent.acceptClient ws, ServerEvent.sendInitialState ws]) := by
  simp [run_client, disconnect_client, hconn, hws]

/-- C7 witness at a concrete session state. -/
theorem C7_session_takeover_witness :
    run_client id ⟨true, some 0⟩ 1 =
      ({ client_connected := true, websocket := some 1 },
       [ServerEvent.closeWebsocket 0 GOING_AWAY "another client took control",
        ServerEvent.acceptClient 1, ServerEvent.sendInitialState 1]) :=
  C7_session_takeover id ⟨true, some 0⟩ 0 1 rfl rfl

theorem settingsLoop_error_commandError (sup_full : Bool) (lang_ok : String → Bool)
    (orig : Settings) :
    ∀ (rest : List (String × Value)) (ns : Settings) (bad_keys : List String)
      (e : PyErr),
      settingsLoop sup_full lang_ok orig ns bad_keys rest = .error e →
      (∀ entry ∈ rest, entry.1 = "direction_control" →
        (directionControlOfValue entry.2).isSome) →
      e = PyErr.commandError := by
  intro rest
  induction rest with
  | nil =>
    intro ns bad_keys e h _
    exact absurd h (by simp [settingsLoop])
  | cons head rest ih =>
    obtain ⟨key, v⟩ := head
    intro ns bad_keys e h hdc
    have hdc2 : ∀ entry ∈ rest, entry.1 = "direction_control" →
        (directionControlOfValue entry.2).isSome :=
      fun entry hm => hdc entry (List.mem_cons_of_mem _ hm)
    simp only [settingsLoop] at h
    by_cases hk1 : key = "type"
    · rw [if_pos hk1] at h
      exact ih _ _ _ h hdc2
    · rw [if_neg hk1] at h
      by_cases hk2 : key = "direction_control"
      · rw [if_pos hk2] at h
        cases hdcv : directionControlOfValue v with
        | none =>
          exact absurd (hdc (key, v) (List.mem_cons_self _ _) hk2) (by simp [hdcv])
        | some dc =>
          rw [hdcv] at h
          dsimp only at h
          by_cases hsup : sup_full
          · rw [if_pos hsup] at h
            by_cases hdcf : dc = DirectionControlEnum.full
            · rw [if_neg (by simp [hdcf])] at h
              exact ih _ _ _ h hdc2
            · rw [if_pos hdcf] at h
              injection h with h2
              exact h2.symm
          · rw [if_neg hsup] at h
            by_cases hdcf : dc = DirectionControlEnum.full
            · rw [if_pos hdcf] at h
              injection h with h2
              exact h2.symm
            · rw [if_neg hdcf] at h
              exact ih _ _ _ h hdc2
      · rw [if_neg hk2] at h
        by_cases hk3 : key = "language"
        · rw [if_pos hk3] at h
          cases v with
          | vStr l =>
            dsimp only at h
            split at h
            · exact ih _ _ _ h hdc2
            · split at h
              · exact ih _ _ _ h hdc2
              · injection h with h2
                exact h2.symm
          | vInt n =>
            dsimp only at h
            injection h with h2
            exact h2.symm
          | vBool b =>
            dsimp only at h
            injection h with h2
            exact h2.symm
          | vOther =>
            dsimp only at h
            injection h with h2
            exact h2.symm
        · rw [if_neg hk3] at h
          by_cases hk4 : key = "loom_name"
          · rw [if_pos hk4] at h
            cases v with
            | vStr x =>
              dsimp only at h
              exact ih _ _ _ h hdc2
            | vInt n =>
              dsimp only at h
              injection h with h2
              exact h2.symm
            | vBool b =>
              dsimp only at h
              injection h with h2
              exact h2.symm
            | vOther =>
              dsimp only at h
              injection h with h2
              exact h2.symm
          · rw [if_neg hk4] at h
            by_cases hk5 : key = "end1_on_right"
            · rw [if_pos hk5] at h
              cases v with
              | vBool b =>
                dsimp only at h
                exact ih _ _ _ h hdc2
              | vInt n =>
                dsimp only at h
                injection h with h2
                exact h2.symm
              | vStr x =>
                dsimp only at h
                injection h with h2
                exact h2.symm
              | vOther =>
                dsimp only at h
                injection h with h2
                exact h2.symm
            · rw [if_neg hk5] at h
              by_cases hk6 : key = "thread_group_size"
              · rw [if_pos hk6] at h
                split at h
                · split at h
                  · injection h with h2
                    exact h2.symm
                  · exact ih _ _ _ h hdc2
                · injection h with h2
                  exact h2.symm
              · rw [if_neg hk6] at h
                by_cases hk7 : key = "thread_right_to_left"
                · rw [if_pos hk7] at h
                  cases v with
                  | vBool b =>
                    dsimp only at h
                    exact ih _ _ _ h hdc2
                  | vInt n =>
                    dsimp only at h
                    injection h with h2
                    exact h2.symm
                  | vStr x =>
                    dsimp only at h
                    injection h with h2
                    exact h2.symm
                  | vOther =>
                    dsimp only at h
                    injection h with h2
                    exact h2.symm
                · rw [if_neg hk7] at h
                  by_cases hk8 : key = "thread_back_to_front"
                  · rw [if_pos hk8] at h
                    cases v with
                    | vBool b =>
                      dsimp only at h
                      exact ih _ _ _ h hdc2
                    | vInt n =>
                      dsimp only at h
                      injection h with h2
                      exact h2.symm
                    | vStr x =>
                      dsimp only at h
                      injection h with h2
                      exact h2.symm
                    | vOther =>
                      dsimp only at h
                      injection h with h2
                      exact h2.symm
                  · rw [if_neg hk8] at h
                    exact ih _ _ _ h hdc2

theorem settingsLoop_ok_bad_keys (sup_full : Bool) (lang_ok : String → Bool)
    (orig : Settings) :
    ∀ (rest : List (String × Value)) (ns : Settings) (bad_keys : List String)
      (ns2 : Settings) (bad2 : List String),
      settingsLoop sup_full lang_ok orig ns bad_keys rest = .ok (ns2, bad2) →
      ((∃ entry ∈ rest, listedInvalidEntry sup_full entry = true) ∨ bad_keys ≠ []) →
      bad2 ≠ [] := by
  intro rest
  induction rest with
  | nil =>
    intro ns bad_keys ns2 bad2 h hd
    simp only [settingsLoop, Except.ok.injEq, Prod.mk.injEq] at h
    rcases hd with ⟨entry, hm, _⟩ | hbk
    · simp at hm
    · rw [← h.2]
      exact hbk
  | cons head rest ih =>
    obtain ⟨key, v⟩ := head
    intro ns bad_keys ns2 bad2 h hd
    have hnext : ∀ bk2 : List String,
        (∃ entry ∈ rest, listedInvalidEntry sup_full entry = true) ∨ bk2 ≠ [] →
        settingsLoop sup_full lang_ok orig ns bk2 rest = .ok (ns2, bad2) → bad2 ≠ [] :=
      fun bk2 hd2 h2 => ih _ _ _ _ h2 hd2
    have hdrest : (∃ entry ∈ (key, v) :: rest, listedInvalidEntry sup_full entry = true) →
        listedInvalidEntry sup_full (key, v) = false →
        (∃ entry ∈ rest, listedInvalidEntry sup_full entry = true) := by
      intro hex hfalse
      obtain ⟨entry, hm, hinv⟩ := hex
      rcases List.mem_cons.mp hm with rfl | hm2
      · rw [hfalse] at hinv
        exact absurd hinv (by simp)
      · exact ⟨entry, hm2, hinv⟩
    simp only [settingsLoop] at h
    by_cases hk1 : key = "type"
    · rw [if_pos hk1] at h
      refine ih _ _ _ _ h ?_
      rcases hd with hex | hbk
      · exact Or.inl (hdrest hex (by simp [listedInvalidEntry, hk1]))
      · exact Or.inr hbk
    · rw [if_neg hk1] at h
      by_cases hk2 : key = "direction_control"
      · rw [if_pos hk2] at h
        cases hdcv : directionControlOfValue v with
        | none =>
          rw [hdcv] at h
          exact absurd h (by simp)
        | some dc =>
          rw [hdcv] at h
          dsimp only at h
          by_cases hsup : sup_full
          · rw [if_pos hsup] at h
            by_cases hdcf : dc = DirectionControlEnum.full
            · rw [if_neg (by simp [hdcf])] at h
              refine ih _ _ _ _ h ?_
              rcases hd with hex | hbk
              · refine Or.inl (hdrest hex ?_)
                simp [listedInvalidEntry, hk1, hk2, hdcv, hdcf, hsup]
              · exact Or.inr hbk
            · rw [if_pos hdcf] at h
              exact absurd h (by simp)
          · rw [if_neg hsup] at h
            by_cases hdcf : dc = DirectionControlEnum.full
            · rw [if_pos hdcf] at h
              exact absurd h (by simp)
            · rw [if_neg hdcf] at h
              refine ih _ _ _ _ h ?_
              rcases hd with hex | hbk
              · refine Or.inl (hdrest hex ?_)
                simp [listedInvalidEntry, hk1, hk2, hdcv, hdcf, hsup]
              · exact Or.inr hbk
      · rw [if_neg hk2] at h
        by_cases hk3 : key = "language"
        · rw [if_pos hk3] at h
          have hfalse : listedInvalidEntry sup_full (key, v) = false := by
            simp [listedInvalidEntry, hk1, hk2, hk3]
          cases v with
          | vStr l =>
            dsimp only at h
            split at h
            · refine ih _ _ _ _ h ?_
              rcases hd with hex | hbk
              · exact Or.inl (hdrest hex hfalse)
              · exact Or.inr hbk
            · split at h
              · refine ih _ _ _ _ h ?_
                rcases hd with hex | hbk
                · exact Or.inl (hdrest hex hfalse)
                · exact Or.inr hbk
              · exact absurd h (by simp)
          | vInt n => exact absurd h (by simp)
          | vBool b => exact absurd h (by simp)
          | vOther => exact absurd h (by simp)
        · rw [if_neg hk3] at h
          by_cases hk4 : key = "loom_name"
          · rw [if_pos hk4] at h
            cases v with
            | vStr x =>
              dsimp only at h
              refine ih _ _ _ _ h ?_
              rcases hd with hex | hbk
              · refine Or.inl (hdrest hex ?_)
                simp [listedInvalidEntry, hk1, hk2, hk3, hk4, Value.isStr]
              · exact Or.inr hbk
            | vInt n => exact absurd h (by simp)
            | vBool b => exact absurd h (by simp)
            | vOther => exact absurd h (by simp)
          · rw [if_neg hk4] at h
            by_cases hk5 : key = "end1_on_right"
            · rw [if_pos hk5] at h
              cases v with
              | vBool b =>
                dsimp only at h
                refine ih _ _ _ _ h ?_
                rcases hd with hex | hbk
                · refine Or.inl (hdrest hex ?_)
                  simp [listedInvalidEntry, hk1, hk2, hk3, hk4, hk5, Value.isBool]
                · exact Or.inr hbk
              | vInt n => exact absurd h (by simp)
              | vStr x => exact absurd h (by simp)
              | vOther => exact absurd h (by simp)
            · rw [if_neg hk5] at h
              by_cases hk6 : key = "thread_group_size"
              · rw [if_pos hk6] at h
                by_cases hint : v.isInt = true
                · rw [if_pos hint] at h
                  by_cases hrange : v.toInt < 1 ∨ v.toInt > MAX_THREAD_GROUP_SIZE
                  · rw [if_pos hrange] at h
                    exact absurd h (by simp)
                  · rw [if_neg hrange] at h
                    refine ih _ _ _ _ h ?_
                    rcases hd with hex | hbk
                    · refine Or.inl (hdrest hex ?_)
                      simp [listedInvalidEntry, hk1, hk2, hk3, hk4, hk5, hk6, hint,
                        MAX_THREAD_GROUP_SIZE]
                      simp [MAX_THREAD_GROUP_SIZE] at hrange
                      omega
                    · exact Or.inr hbk
                · rw [if_neg hint] at h
                  exact absurd h (by simp)
              · rw [if_neg hk6] at h
                by_cases hk7 : key = "thread_right_to_left"
                · rw [if_pos hk7] at h
                  cases v with
                  | vBool b =>
                    dsimp only at h
                    refine ih _ _ _ _ h ?_
                    rcases hd with hex | hbk
                    · refine Or.inl (hdrest hex ?_)
                      simp [listedInvalidEntry, hk1, hk2, hk3, hk4, hk5, hk6, hk7,
                        Value.isBool]
                    · exact Or.inr hbk
                  | vInt n => exact absurd h (by simp)
                  | vStr x => exact absurd h (by simp)
                  | vOther => exact absurd h (by simp)
                · rw [if_neg hk7] at h
                  by_cases hk8 : key = "thread_back_to_front"
                  · rw [if_pos hk8] at h
                    cases v with
                    | vBool b =>
                      dsimp only at h
                      refine ih _ _ _ _ h ?_
                      rcases hd with hex | hbk
                      · refine Or.inl (hdrest hex ?_)
                        simp [listedInvalidEntry, hk1, hk2, hk3, hk4, hk5, hk6, hk7,
                          hk8, Value.isBool]
                      · exact Or.inr hbk
                    | vInt n => exact absurd h (by simp)
                    | vStr x => exact absurd h (by simp)
                    | vOther => exact absurd h (by simp)
                  · rw [if_neg hk8] at h
                    refine ih _ _ _ _ h (Or.inr ?_)
                    simp

theorem cmd_settings_rejected (sup_full : Bool) (lang_ok : String → Bool)
    (s : Settings) (cmd : List (String × Value))
    (hinv : ∃ entry ∈ cmd, listedInvalidEntry sup_full entry = true)
    (hdc : ∀ entry ∈ cmd, entry.1 = "direction_control" →
      (directionControlOfValue entry.2).isSome) :
    cmd_settings sup_full lang_ok s cmd = .error .commandError ∧
    liveSettingsAfter sup_full lang_ok s cmd = s := by
  have hmain : cmd_settings sup_full lang_ok s cmd = .error .commandError := by
    unfold cmd_settings
    cases hres : settingsLoop sup_full lang_ok s s [] cmd with
    | error e =>
      rw [settingsLoop_error_commandError sup_full lang_ok s cmd s [] e hres hdc]
    | ok p =>
      obtain ⟨ns, bad⟩ := p
      have hbad : bad ≠ [] :=
        settingsLoop_ok_bad_keys sup_full lang_ok s cmd s [] ns bad hres (Or.inl hinv)
      dsimp only
      rw [if_pos hbad]
  refine ⟨hmain, ?_⟩
  unfold liveSettingsAfter
  rw [hmain]

/-- C3 counterexample: the command
`[direction_control := 7, foo := 1]` contains a listed-invalid field (the
unknown key `foo`), but `cmd_settings` raises `ValueError` (from the enum
conversion of `direction_control`), not `CommandError`. -/
theorem C3_counterexample :
    (∃ entry ∈ [("direction_control", Value.vInt 7), ("foo", Value.vInt 1)],
      listedInvalidEntry true entry = true) ∧
    cmd_settings true (fun _ => true) egSettings
      [("direction_control", Value.vInt 7), ("foo", Value.vInt 1)] =
      .error .valueError ∧
    PyErr.valueError ≠ PyErr.commandError := by
  refine ⟨⟨("foo", Value.vInt 1), by simp, by decide⟩, by rfl, by decide⟩

/-- C3 (amended): a `settings` command containing a field that is invalid in
one of the four listed senses is rejected with a single `CommandError` —
provided every `direction_control` value in the command is a member of the
enum (otherwise a `ValueError` escapes instead) — and in every case the live
Settings object is unchanged; it is replaced only when every field passes
validation. -/
theorem C3_settings_atomicity (sup_full : Bool) (lang_ok : String → Bool)
    (s : Settings) (cmd : List (String × Value))
    (hinv : ∃ entry ∈ cmd, listedInvalidEntry sup_full entry = true)
    (hdc : ∀ entry ∈ cmd, entry.1 = "direction_control" →
      (directionControlOfValue entry.2).isSome) :
    cmd_settings sup_full lang_ok s cmd = .error .commandError ∧
    liveSettingsAfter sup_full lang_ok s cmd = s :=
  cmd_settings_rejected sup_full lang_ok s cmd hinv hdc

/-- C3 witness: an out-of-range `thread_group_size` is rejected and the live
settings are unchanged. -/
theorem C3_settings_atomicity_witness :
    cmd_settings true (fun _ => true) egSettings
      [("thread_group_size", Value.vInt 0)] = .error .commandError ∧
    liveSettingsAfter true (fun _ => true) egSettings
      [("thread_group_size", Value.vInt 0)] = egSettings :=
  C3_settings_atomicity true (fun _ => true) egSettings
    [("thread_group_size", Value.vInt 0)] (by decide) (by decide)

/-- C10: on a loom that declares full direction control, every settings
command that sets `direction_control` to a valid enum value other than FULL
(i.e. LOOM or SOFTWARE) is rejected with a `CommandError`, and the live
Settings object is unchanged (command keys are unique, being a JSON
object). -/
theorem C10_full_direction_control (lang_ok : String → Bool) (s : Settings)
    (cmd : List (String × Value)) (v : Value) (dc : DirectionControlEnum)
    (hmem : ("direction_control", v) ∈ cmd)
    (hparse : directionControlOfValue v = some dc) (hne : dc ≠ .full)
    (huniq : ∀ entry ∈ cmd, entry.1 = "direction_control" → entry.2 = v) :
    cmd_settings true lang_ok s cmd = .error .commandError ∧
    liveSettingsAfter true lang_ok s cmd = s := by
  have hinv : ∃ entry ∈ cmd, listedInvalidEntry true entry = true := by
    refine ⟨("direction_control", v), hmem, ?_⟩
    simp [listedInvalidEntry, hparse, hne]
  have hdc : ∀ entry ∈ cmd, entry.1 = "direction_control" →
      (directionControlOfValue entry.2).isSome := by
    intro entry hm hk
    rw [huniq entry hm hk, hparse]
    rfl
  exact cmd_settings_rejected true lang_ok s cmd hinv hdc

/-- C10 witness: `direction_control := LOOM` rejected on a
full-direction-control loom. -/
theorem C10_full_direction_control_witness :
    cmd_settings true (fun _ => true) egSettings
      [("direction_control", Value.vInt 2)] = .error .commandError ∧
    liveSettingsAfter true (fun _ => true) egSettings
      [("direction_control", Value.vInt 2)] = egSettings :=
  C10_full_direction_control (fun _ => true) egSettings
    [("direction_control", Value.vInt 2)] (Value.vInt 2) DirectionControlEnum.loom
    (by decide) (by decide) (by decide) (by decide)
